import Mathlib

/-!
Shallow embedding of `cleanup_global_env.py` (the package reconciliation and
safe-removal analysis of the repository) together with proofs of the
properties its specification states.

Modelling conventions:
* Python strings are Lean `String`s; `str.lower` and `str.strip` are modelled
  on ASCII (`pyLowerS`, `pyStripList`), which is exact for package names,
  manifest lines and the interactive responses the script compares against.
* Python dicts are association lists `List (String × String)`; the script
  only uses key membership, key iteration and item iteration on them.
* Python sets of strings are `Finset String`.
* Fallible operations are `Except`/`Option`-valued; subprocess and filesystem
  outcomes (pip list result, writability of the backup destination, the
  interactive answers, a keyboard interrupt at a prompt) are explicit inputs
  to the model of `main`.
-/

namespace CleanupGlobalEnv

/-- ASCII model of Python `str.lower` on one character. -/
def pyLowerChar (c : Char) : Char :=
  if 'A' ≤ c ∧ c ≤ 'Z' then Char.ofNat (c.toNat + 32) else c

/-- Model of Python `str.lower` (package names and responses are ASCII). -/
def pyLowerS (s : String) : String := ⟨s.data.map pyLowerChar⟩

/-- Python's default whitespace class for `str.strip`
(space, tab, newline, carriage return, vertical tab, form feed). -/
def pySpace (c : Char) : Bool :=
  c == ' ' || c == '\t' || c == '\n' || c == '\r' ||
    c == Char.ofNat 11 || c == Char.ofNat 12

/-- Remove the maximal all-whitespace suffix of a character list
(the right half of Python `str.strip()`). -/
def trimRight : List Char → List Char
  | [] => []
  | c :: t =>
    match trimRight t with
    | [] => if pySpace c then [] else [c]
    | x :: xs => c :: x :: xs

/-- Model of Python `str.strip()` on a character list. -/
def pyStripList (s : List Char) : List Char :=
  trimRight (s.dropWhile pySpace)

/-- Does `s` start with `sep`? (Python `str.startswith`, and the test used
by the first-occurrence search of `str.split`.) -/
def hasPrefixCL : List Char → List Char → Bool
  | [], _ => true
  | _ :: _, [] => false
  | c :: cs, x :: xs => c == x && hasPrefixCL cs xs

/-- The characters of `s` that precede the first occurrence of `sep`:
Python `s.split(sep)[0]` for a nonempty `sep`. -/
def beforeSeq (sep : List Char) : List Char → List Char
  | [] => []
  | c :: rest => if hasPrefixCL sep (c :: rest) then [] else c :: beforeSeq sep rest

/-- The version-specifier stripping chain of `load_requirements`:
`line.split('==')[0].split('>=')[0].split('<=')[0].split('>')[0].split('<')[0].split('[')[0]`. -/
def stripVersionSpec (line : List Char) : List Char :=
  beforeSeq ['[']
    (beforeSeq ['<']
      (beforeSeq ['>']
        (beforeSeq ['<', '=']
          (beforeSeq ['>', '=']
            (beforeSeq ['=', '='] line)))))

/-- One loop iteration of `load_requirements`: the stripped line is kept when
it is nonempty and does not start with `'#'`; the kept entry is the bare
lowercased package name after the specifier splits and a final `strip`. -/
def parseLine (raw : List Char) : Option String :=
  let line := pyStripList raw
  if line ≠ [] ∧ line.head? ≠ some '#' then
    some (pyLowerS ⟨pyStripList (stripVersionSpec line)⟩)
  else none

/-- Split file contents at newline characters.  Python's text-mode line
iteration keeps the trailing newline on each line, which the per-line
`strip()` then removes, so composing with `parseLine` gives the same entries;
the possible final empty chunk is a blank line and contributes nothing. -/
def splitLines : List Char → List (List Char)
  | [] => [[]]
  | c :: rest =>
    let r := splitLines rest
    if c = '\n' then [] :: r else (c :: r.headD []) :: r.tail

/-- `load_requirements` applied to the contents of an existing manifest. -/
def load_requirements (contents : String) : Finset String :=
  ((splitLines contents.data).filterMap parseLine).toFinset

/-- `load_requirements` including its missing-file branch (`none` models a
manifest that does not exist; the script then returns an empty set). -/
def load_requirements_file (file : Option String) : Finset String :=
  match file with
  | none => ∅
  | some contents => load_requirements contents

/-- The `ESSENTIAL_TOOLS` constant of the script. -/
def ESSENTIAL_TOOLS : Finset String :=
  {"jupyter", "jupyterlab", "ipython", "ipykernel", "notebook",
   "pip", "setuptools", "wheel", "pipx", "black", "pytest",
   "flake8", "mypy", "autopep8"}

/-- The `CORE_PACKAGES` constant of the script. -/
def CORE_PACKAGES : Finset String := {"pip", "setuptools", "wheel"}

/-- `identify_project_dependencies`: requirement names that are installed
globally, together with the global ∩ venv names that are not essential tools
(the second test uses the raw name, exactly as the source does). -/
def identify_project_dependencies (globalKeys venvKeys : List String)
    (requirements : Finset String) : Finset String :=
  requirements.filter (fun req => req ∈ globalKeys) ∪
    ((globalKeys.filter (fun p => p ∈ venvKeys)).filter
      (fun p => ¬ p ∈ ESSENTIAL_TOOLS)).toFinset

/-- The verdict one loop iteration of `identify_safe_to_remove` assigns to a
global package name. -/
inductive Verdict where
  | keep
  | safeToRemove
  | unclassified
deriving DecidableEq

/-- The body of the classification loop of `identify_safe_to_remove`,
written as the equivalent first-match-wins chain: the third Python branch
(`pkg_name in project_deps` with the nested venv test and `continue`) falls
through to the fourth branch exactly when its conjunction fails. -/
def classifyPkg (venvKeys : List String) (requirements project_deps : Finset String)
    (pkg_name : String) : Verdict :=
  let pkg_lower := pyLowerS pkg_name
  if pkg_lower ∈ CORE_PACKAGES then .keep
  else if pkg_lower ∈ ESSENTIAL_TOOLS then .keep
  else if pkg_name ∈ project_deps ∧ pkg_lower ∈ venvKeys then .safeToRemove
  else if pkg_lower ∈ requirements ∧ pkg_lower ∈ venvKeys then .safeToRemove
  else .unclassified

/-- `identify_safe_to_remove`: the pair `(safe_to_remove, keep)` of sets of
global package names, classified independently per name. -/
def identify_safe_to_remove (globalKeys venvKeys : List String)
    (requirements : Finset String) : Finset String × Finset String :=
  let project_deps := identify_project_dependencies globalKeys venvKeys requirements
  ((globalKeys.filter
      (fun p => classifyPkg venvKeys requirements project_deps p = .safeToRemove)).toFinset,
   (globalKeys.filter
      (fun p => classifyPkg venvKeys requirements project_deps p = .keep)).toFinset)

/-- Outcome of one `pip list --format=json` subprocess invocation:
a parsed JSON package list, a non-zero exit (`CalledProcessError`), or
unparseable output (`JSONDecodeError`). -/
inductive ListerOutcome where
  | ok (pkgs : List (String × String))
  | processError
  | jsonError
deriving DecidableEq

/-- Python dict insertion: updating an existing key keeps its position,
a new key is appended. -/
def dictInsert (d : List (String × String)) (k v : String) : List (String × String) :=
  if d.any (fun p => p.1 = k) then d.map (fun p => if p.1 = k then (k, v) else p)
  else d ++ [(k, v)]

/-- The dict comprehension `{pkg['name'].lower(): pkg['version'] for pkg in packages}`. -/
def buildPkgDict (pkgs : List (String × String)) : List (String × String) :=
  pkgs.foldl (fun d p => dictInsert d (pyLowerS p.1) p.2) []

/-- `get_packages`: raises `FileNotFoundError` when a venv path was given but
its python executable does not exist; otherwise the lister runs, and both a
failed process and unparseable output degrade to an empty mapping (the
script prints a message and returns `{}` in those branches). -/
def get_packages (isVenv venvPythonExists : Bool) (outcome : ListerOutcome) :
    Except Unit (List (String × String)) :=
  if isVenv = true ∧ venvPythonExists = false then .error ()
  else
    match outcome with
    | .ok pkgs => .ok (buildPkgDict pkgs)
    | .processError => .ok []
    | .jsonError => .ok []

/-- Python's ordering on `(name, version)` pairs as sorted by
`sorted(global_packages.items())`: lexicographic on the tuple. -/
def pairLe (p q : String × String) : Prop :=
  p.1 < q.1 ∨ (p.1 = q.1 ∧ p.2 ≤ q.2)

instance : DecidableRel pairLe := fun p q => by
  unfold pairLe
  exact inferInstance

instance : IsTotal (String × String) pairLe := by
  constructor
  intro a b
  rcases lt_trichotomy a.1 b.1 with h | h | h
  · exact Or.inl (Or.inl h)
  · rcases le_total a.2 b.2 with h2 | h2
    · exact Or.inl (Or.inr ⟨h, h2⟩)
    · exact Or.inr (Or.inr ⟨h.symm, h2⟩)
  · exact Or.inr (Or.inl h)

instance : IsTrans (String × String) pairLe := by
  constructor
  intro a b c hab hbc
  rcases hab with h1 | ⟨e1, l1⟩
  · rcases hbc with h2 | ⟨e2, _⟩
    · exact Or.inl (h1.trans h2)
    · exact Or.inl (e2 ▸ h1)
  · rcases hbc with h2 | ⟨e2, l2⟩
    · exact Or.inl (e1 ▸ h2)
    · exact Or.inr ⟨e1.trans e2, l1.trans l2⟩

/-- The item sequence `sorted(global_packages.items())` of `create_backup`. -/
def create_backup_pairs (globalPkgs : List (String × String)) :
    List (String × String) :=
  List.insertionSort pairLe globalPkgs

/-- The `f"{pkg_name}=={version}"` body of one backup line. -/
def backupLine (p : String × String) : List Char :=
  p.1.data ++ '=' :: '=' :: p.2.data

/-- The full contents `create_backup` writes: one `name==version` line per
global package, sorted, each terminated by a newline. -/
def create_backup_content (globalPkgs : List (String × String)) : List Char :=
  ((create_backup_pairs globalPkgs).map (fun p => backupLine p ++ ['\n'])).flatten

/-- The outcome record of one run of `main` (as wrapped by the
`__main__` handlers for `KeyboardInterrupt` and `Exception`).

Field order: `exitCode`, `uninstallInvoked`, `backupAttempted`,
`backupWritten`, `continuePrompted`, `resp1Prompted`, `finalPrompted`.

`uninstallInvoked` records that `uninstall_packages(..., dry_run=False)`
reached the actual `pip uninstall` subprocess call (the preview call with
`dry_run=True` only prints and is not a mutation).  The prompt flags record
that the corresponding `input()` call was issued. -/
structure MainResult where
  exitCode : Nat
  uninstallInvoked : Bool
  backupAttempted : Bool
  backupWritten : Bool
  continuePrompted : Bool
  resp1Prompted : Bool
  finalPrompted : Bool
deriving DecidableEq

/-- The external-world inputs of one run of `main`: whether `./venv` and its
python executable exist, the two lister outcomes, the manifest file contents
(`none` = missing), the three interactive answers (`none` = a keyboard
interrupt at that prompt), whether the backup destination is writable, and
whether the `pip uninstall` subprocess succeeds. -/
structure MainInput where
  venvExists : Bool
  venvPythonExists : Bool
  continueResp : Option String
  venvLister : ListerOutcome
  globalLister : ListerOutcome
  reqFile : Option String
  resp1 : Option String
  finalConfirm : Option String
  backupWritable : Bool
  uninstallOk : Bool

/-- `main` from the global-environment analysis onward, given the venv
package keys already obtained (`cp` records whether the "Continue anyway?"
prompt was issued earlier).  An unwritable backup destination makes the
`open(..., 'w')` inside `create_backup` raise, which the `__main__` handler
turns into exit code 1; on a successful write the file exists, so the
boolean `create_backup` returns only gates a log line. -/
def mainPhase2 (inp : MainInput) (venvKeys : List String) (cp : Bool) : MainResult :=
  let globalDict := ((get_packages false true inp.globalLister).toOption).getD []
  let globalKeys := globalDict.map Prod.fst
  let requirements := load_requirements_file inp.reqFile
  let sk := identify_safe_to_remove globalKeys venvKeys requirements
  if sk.1 = ∅ then ⟨0, false, false, false, cp, false, false⟩
  else
    match inp.resp1 with
    | none => ⟨0, false, false, false, cp, true, false⟩
    | some r =>
      if pyLowerS r ≠ "y" then ⟨0, false, false, false, cp, true, false⟩
      else if inp.backupWritable = false then ⟨1, false, true, false, cp, true, false⟩
      else
        match inp.finalConfirm with
        | none => ⟨0, false, true, true, cp, true, true⟩
        | some fc =>
          if pyLowerS fc ≠ "yes" then ⟨0, false, true, true, cp, true, true⟩
          else if inp.uninstallOk then ⟨0, true, true, true, cp, true, true⟩
          else ⟨1, true, true, true, cp, true, true⟩

/-- One full run of `main` under the `__main__` exception handlers:
`KeyboardInterrupt` exits with code 0, any other exception with code 1. -/
def mainRun (inp : MainInput) : MainResult :=
  if inp.venvExists = false then
    match inp.continueResp with
    | none => ⟨0, false, false, false, true, false, false⟩
    | some r =>
      if pyLowerS r ≠ "y" then ⟨0, false, false, false, true, false, false⟩
      else mainPhase2 inp [] true
  else
    match get_packages true inp.venvPythonExists inp.venvLister with
    | .error _ => ⟨1, false, false, false, false, false, false⟩
    | .ok venvDict => mainPhase2 inp (venvDict.map Prod.fst) false

/-- A "Continue anyway?" / "Create backup and uninstall?" answer that does
not lower to `"y"`, or a keyboard interrupt at that prompt. -/
def nonAffirmY : Option String → Prop
  | none => True
  | some r => pyLowerS r ≠ "y"

/-- A final-confirmation answer that does not lower to `"yes"`, or a
keyboard interrupt at that prompt. -/
def nonAffirmYes : Option String → Prop
  | none => True
  | some r => pyLowerS r ≠ "yes"

/-- A character that can appear in a bare package name: not Python
whitespace, not a version-specifier character, not `'#'`. -/
def goodChar (c : Char) : Bool :=
  decide (pySpace c = false ∧ c ≠ '=' ∧ c ≠ '>' ∧ c ≠ '<' ∧ c ≠ '[' ∧ c ≠ '#')

/-- `q` is empty or starts with one of the specifier markers
`==`, `>=`/`>`, `<=`/`<`, `[` that `load_requirements` strips. -/
def specHead (q : List Char) : Prop :=
  q = [] ∨ (∃ t, q = '=' :: '=' :: t) ∨ (∃ t, q = '>' :: t) ∨
    (∃ t, q = '<' :: t) ∨ (∃ t, q = '[' :: t)

/-- A package name as written by `pip list`/`create_backup`: nonempty, made
of name characters, and already lowercase. -/
def validName (s : String) : Prop :=
  s.data ≠ [] ∧ (∀ c ∈ s.data, goodChar c = true) ∧ pyLowerS s = s

instance validName_decidable (s : String) : Decidable (validName s) := by
  unfold validName
  infer_instance

/-! ## Classification lemmas and claims C2–C5, C10 -/

/-- Reading off the branch chain of the loop body: the verdict is `keep`
exactly for core/essential names. -/
theorem classify_eq_keep_iff (venvKeys : List String)
    (requirements project_deps : Finset String) (p : String) :
    classifyPkg venvKeys requirements project_deps p = .keep ↔
      (pyLowerS p ∈ CORE_PACKAGES ∨ pyLowerS p ∈ ESSENTIAL_TOOLS) := by
  simp only [classifyPkg]
  split_ifs with h1 h2 h3 h4 <;> simp_all

/-- The verdict is `safeToRemove` exactly when the name is neither core nor
essential and one of the two removability branches fires. -/
theorem classify_eq_safe_iff (venvKeys : List String)
    (requirements project_deps : Finset String) (p : String) :
    classifyPkg venvKeys requirements project_deps p = .safeToRemove ↔
      (pyLowerS p ∉ CORE_PACKAGES ∧ pyLowerS p ∉ ESSENTIAL_TOOLS ∧
        ((p ∈ project_deps ∧ pyLowerS p ∈ venvKeys) ∨
          (pyLowerS p ∈ requirements ∧ pyLowerS p ∈ venvKeys))) := by
  simp only [classifyPkg]
  split_ifs with h1 h2 h3 h4 <;> simp_all

/-- Membership in the `safe_to_remove` component. -/
theorem mem_safe_iff (g v : List String) (r : Finset String) (p : String) :
    p ∈ (identify_safe_to_remove g v r).1 ↔
      p ∈ g ∧ classifyPkg v r (identify_project_dependencies g v r) p = .safeToRemove := by
  simp [identify_safe_to_remove, List.mem_filter]

/-- Membership in the `keep` component. -/
theorem mem_keep_iff (g v : List String) (r : Finset String) (p : String) :
    p ∈ (identify_safe_to_remove g v r).2 ↔
      p ∈ g ∧ classifyPkg v r (identify_project_dependencies g v r) p = .keep := by
  simp [identify_safe_to_remove, List.mem_filter]

/-- C2: for every global package set, project package set and
declared-dependency set, `identify_safe_to_remove` returns sets with
`safe_to_remove ∩ keep = ∅` and `safe_to_remove ⊆ global_packages.keys()`. -/
theorem identify_safe_disjoint_and_subset (g v : List String) (r : Finset String) :
    (identify_safe_to_remove g v r).1 ∩ (identify_safe_to_remove g v r).2 = ∅ ∧
      (identify_safe_to_remove g v r).1 ⊆ g.toFinset := by
  constructor
  · rw [Finset.eq_empty_iff_forall_not_mem]
    intro p hp
    rw [Finset.mem_inter, mem_safe_iff, mem_keep_iff] at hp
    exact Verdict.noConfusion (hp.1.2.symm.trans hp.2.2)
  · intro p hp
    rw [mem_safe_iff] at hp
    exact List.mem_toFinset.mpr hp.1

/-- C3: every global package whose lowercased name is in `CORE_PACKAGES` or
`ESSENTIAL_TOOLS` lands in `keep` and never in `safe_to_remove`, for every
project package set and declared-dependency set (the core/essential branches
are checked first and short-circuit the removability branches). -/
theorem core_essential_always_kept (g v : List String) (r : Finset String)
    (p : String) (hg : p ∈ g)
    (hce : pyLowerS p ∈ CORE_PACKAGES ∨ pyLowerS p ∈ ESSENTIAL_TOOLS) :
    p ∈ (identify_safe_to_remove g v r).2 ∧ p ∉ (identify_safe_to_remove g v r).1 := by
  constructor
  · exact (mem_keep_iff g v r p).mpr ⟨hg, (classify_eq_keep_iff _ _ _ _).mpr hce⟩
  · intro hp
    have hs := ((mem_safe_iff g v r p).mp hp).2
    rw [classify_eq_safe_iff] at hs
    rcases hce with h | h
    · exact hs.1 h
    · exact hs.2.1 h

/-- Witness for C3 at a concrete input: `black` is essential, so it is kept
even though it is in the project set and the declared dependencies. -/
theorem core_essential_always_kept_witness :
    ("black" ∈ (["black", "flask"] : List String) ∧
      (pyLowerS "black" ∈ CORE_PACKAGES ∨ pyLowerS "black" ∈ ESSENTIAL_TOOLS)) ∧
    ("black" ∈ (identify_safe_to_remove ["black", "flask"] ["black"] {"black"}).2 ∧
      "black" ∉ (identify_safe_to_remove ["black", "flask"] ["black"] {"black"}).1) :=
  ⟨by decide,
    core_essential_always_kept ["black", "flask"] ["black"] {"black"} "black"
      (by decide) (by decide)⟩

/-- C4: every name in `safe_to_remove` is present (under the script's
lowercased-identity check) in the project package set; in particular an
empty project environment makes `safe_to_remove` empty. -/
theorem safe_subset_venv (g v : List String) (r : Finset String) :
    (∀ p ∈ (identify_safe_to_remove g v r).1, pyLowerS p ∈ v) ∧
      (identify_safe_to_remove g [] r).1 = ∅ := by
  have key : ∀ (v' : List String), ∀ p ∈ (identify_safe_to_remove g v' r).1,
      pyLowerS p ∈ v' := by
    intro v' p hp
    have hs := ((mem_safe_iff g v' r p).mp hp).2
    rw [classify_eq_safe_iff] at hs
    rcases hs.2.2 with h | h
    · exact h.2
    · exact h.2
  refine ⟨key v, ?_⟩
  rw [Finset.eq_empty_iff_forall_not_mem]
  intro p hp
  exact absurd (key [] p hp) (List.not_mem_nil _)

/-- Witness for C4 at a concrete input: `flask` is classified safe to remove
and indeed lies in the project package set. -/
theorem safe_subset_venv_witness :
    ("flask" ∈ (identify_safe_to_remove ["flask", "pip"] ["flask"] {"flask"}).1 ∧
      pyLowerS "flask" ∈ (["flask"] : List String)) ∧
    (identify_safe_to_remove ["flask", "pip"] [] {"flask"}).1 = ∅ :=
  ⟨⟨by decide,
      (safe_subset_venv ["flask", "pip"] ["flask"] {"flask"}).1 "flask" (by decide)⟩,
    (safe_subset_venv ["flask", "pip"] [] {"flask"}).2⟩

/-- C5: on the concrete input `global = {flask: 2.0, pip: 23.0, black: 24.0}`,
`project = {flask: 2.0}`, `declared = {flask}`, classification returns
`safe_to_remove = {flask}` and `keep = {pip, black}`. -/
theorem classify_concrete_scenario :
    identify_safe_to_remove
      ((("flask", "2.0") :: ("pip", "23.0") :: ("black", "24.0") :: []).map Prod.fst)
      ((("flask", "2.0") :: []).map Prod.fst)
      {"flask"} = ({"flask"}, {"pip", "black"}) := by
  decide

/-- C10: the `keep` set is exactly the global names whose lowercased form is
core or essential, and `keep ∪ safe_to_remove` can be a strict subset of the
global names (unclassified packages land in neither set). -/
theorem keep_exactly_core_essential :
    (∀ (g v : List String) (r : Finset String) (p : String),
      p ∈ (identify_safe_to_remove g v r).2 ↔
        p ∈ g ∧ (pyLowerS p ∈ CORE_PACKAGES ∨ pyLowerS p ∈ ESSENTIAL_TOOLS)) ∧
    (identify_safe_to_remove ["requests"] [] ∅).1 ∪
        (identify_safe_to_remove ["requests"] [] ∅).2 ⊂
      (["requests"] : List String).toFinset := by
  constructor
  · intro g v r p
    rw [mem_keep_iff, classify_eq_keep_iff]
  · decide

/-! ## Control-flow lemmas and claims C1, C8, C9 -/

/-- Combined branch analysis of `mainPhase2`: the continue-prompt flag is
passed through; the destructive uninstall happens only after a written backup
and affirmative answers to both removal prompts; a failed backup write ends
the run with exit code 1 and no uninstall; a non-affirmative answer or
interrupt at either removal prompt ends the run with exit code 0 and no
uninstall. -/
theorem mainPhase2_spec (inp : MainInput) (vk : List String) (cp : Bool) :
    (mainPhase2 inp vk cp).continuePrompted = cp ∧
    ((mainPhase2 inp vk cp).uninstallInvoked = true →
      (mainPhase2 inp vk cp).backupWritten = true ∧ inp.backupWritable = true ∧
      (∃ r, inp.resp1 = some r ∧ pyLowerS r = "y") ∧
      (∃ fc, inp.finalConfirm = some fc ∧ pyLowerS fc = "yes")) ∧
    ((mainPhase2 inp vk cp).backupAttempted = true → inp.backupWritable = false →
      (mainPhase2 inp vk cp).uninstallInvoked = false ∧
        (mainPhase2 inp vk cp).exitCode = 1) ∧
    ((mainPhase2 inp vk cp).resp1Prompted = true → nonAffirmY inp.resp1 →
      (mainPhase2 inp vk cp).exitCode = 0 ∧
        (mainPhase2 inp vk cp).uninstallInvoked = false) ∧
    ((mainPhase2 inp vk cp).finalPrompted = true → nonAffirmYes inp.finalConfirm →
      (mainPhase2 inp vk cp).exitCode = 0 ∧
        (mainPhase2 inp vk cp).uninstallInvoked = false) := by
  simp only [mainPhase2]
  split
  next => simp
  next =>
    split
    next heq => simp [heq, nonAffirmY]
    next r heq =>
      split
      next hy => simp
      next hy =>
        split
        next hbw => simp_all [nonAffirmY]
        next hbw =>
          split
          next heqf => simp_all [nonAffirmY, nonAffirmYes]
          next fc heqf =>
            split
            next hyes => simp_all [nonAffirmY, nonAffirmYes]
            next hyes =>
              split
              next huo => simp_all [nonAffirmY, nonAffirmYes]
              next huo => simp_all [nonAffirmY, nonAffirmYes]

/-- When the global lister fails, the global mapping degrades to empty, the
classification finds nothing to remove, and `main` returns normally. -/
theorem mainPhase2_globalEmpty (inp : MainInput) (vk : List String) (cp : Bool)
    (h : inp.globalLister = .processError ∨ inp.globalLister = .jsonError) :
    mainPhase2 inp vk cp = ⟨0, false, false, false, cp, false, false⟩ := by
  rcases h with h | h <;>
    · unfold mainPhase2
      rw [h]
      rfl

/-- C1: the destructive uninstall is invoked only after the backup has been
written (which requires a writable destination) and both removal prompts
were answered affirmatively; and if the backup write is attempted and fails,
the uninstall is never invoked and the run exits with code 1. -/
theorem uninstall_requires_backup_and_confirmations (inp : MainInput) :
    ((mainRun inp).uninstallInvoked = true →
      (mainRun inp).backupWritten = true ∧ inp.backupWritable = true ∧
      (∃ r, inp.resp1 = some r ∧ pyLowerS r = "y") ∧
      (∃ fc, inp.finalConfirm = some fc ∧ pyLowerS fc = "yes")) ∧
    ((mainRun inp).backupAttempted = true → inp.backupWritable = false →
      (mainRun inp).uninstallInvoked = false ∧ (mainRun inp).exitCode = 1) := by
  simp only [mainRun]
  split
  next =>
    split
    next => simp
    next r heq =>
      split
      next => simp
      next => exact ⟨(mainPhase2_spec inp [] true).2.1, (mainPhase2_spec inp [] true).2.2.1⟩
  next =>
    split
    next => simp
    next venvDict heq =>
      exact ⟨(mainPhase2_spec inp _ false).2.1, (mainPhase2_spec inp _ false).2.2.1⟩

/-- A concrete run that reaches the uninstall step. -/
def exRunOk : MainInput :=
  ⟨true, true, none, .ok [("flask", "2.0")], .ok [("flask", "2.0"), ("pip", "23.0")],
    some "flask", some "y", some "yes", true, true⟩

/-- The same run with an unwritable backup destination. -/
def exRunBackupFail : MainInput :=
  ⟨true, true, none, .ok [("flask", "2.0")], .ok [("flask", "2.0"), ("pip", "23.0")],
    some "flask", some "y", some "yes", false, true⟩

/-- Witness for C1: a run that uninstalls has a written backup and two
affirmative confirmations; the same run with a failing backup write exits
with code 1 without uninstalling. -/
theorem uninstall_requires_backup_and_confirmations_witness :
    ((mainRun exRunOk).uninstallInvoked = true ∧
      ((mainRun exRunOk).backupWritten = true ∧ exRunOk.backupWritable = true ∧
        (∃ r, exRunOk.resp1 = some r ∧ pyLowerS r = "y") ∧
        (∃ fc, exRunOk.finalConfirm = some fc ∧ pyLowerS fc = "yes"))) ∧
    ((mainRun exRunBackupFail).backupAttempted = true ∧
      exRunBackupFail.backupWritable = false ∧
      ((mainRun exRunBackupFail).uninstallInvoked = false ∧
        (mainRun exRunBackupFail).exitCode = 1)) :=
  ⟨⟨by decide, (uninstall_requires_backup_and_confirmations exRunOk).1 (by decide)⟩,
    ⟨by decide, by decide,
      (uninstall_requires_backup_and_confirmations exRunBackupFail).2
        (by decide) (by decide)⟩⟩

/-- C8: a non-affirmative response (or an interrupt) at any of the three
prompts terminates the run with exit code 0 and without invoking the
uninstaller. -/
theorem user_abort_exits_zero (inp : MainInput) :
    ((mainRun inp).continuePrompted = true → nonAffirmY inp.continueResp →
      (mainRun inp).exitCode = 0 ∧ (mainRun inp).uninstallInvoked = false) ∧
    ((mainRun inp).resp1Prompted = true → nonAffirmY inp.resp1 →
      (mainRun inp).exitCode = 0 ∧ (mainRun inp).uninstallInvoked = false) ∧
    ((mainRun inp).finalPrompted = true → nonAffirmYes inp.finalConfirm →
      (mainRun inp).exitCode = 0 ∧ (mainRun inp).uninstallInvoked = false) := by
  simp only [mainRun]
  split
  next =>
    split
    next heq => simp [nonAffirmY]
    next r heq =>
      split
      next hy => simp
      next hy =>
        refine ⟨?_, (mainPhase2_spec inp [] true).2.2.2.1,
          (mainPhase2_spec inp [] true).2.2.2.2⟩
        intro _ hna
        rw [heq] at hna
        exact absurd (by simpa using hy : pyLowerS r = "y") hna
  next =>
    split
    next => simp
    next venvDict heq =>
      refine ⟨?_, (mainPhase2_spec inp _ false).2.2.2.1,
        (mainPhase2_spec inp _ false).2.2.2.2⟩
      intro hcp
      rw [(mainPhase2_spec inp _ false).1] at hcp
      exact absurd hcp (by simp)

/-- A run that declines the final confirmation. -/
def exRunDecline : MainInput :=
  ⟨true, true, none, .ok [("flask", "2.0")], .ok [("flask", "2.0"), ("pip", "23.0")],
    some "flask", some "y", some "no", true, true⟩

/-- Witness for C8: answering "no" at the final confirmation exits with
code 0 and no uninstall. -/
theorem user_abort_exits_zero_witness :
    ((mainRun exRunDecline).finalPrompted = true ∧
      nonAffirmYes exRunDecline.finalConfirm) ∧
    ((mainRun exRunDecline).exitCode = 0 ∧
      (mainRun exRunDecline).uninstallInvoked = false) :=
  ⟨⟨by decide, by exact (by decide : pyLowerS "no" ≠ "yes")⟩,
    (user_abort_exits_zero exRunDecline).2.2 (by decide)
      (by exact (by decide : pyLowerS "no" ≠ "yes"))⟩

/-- C9: a failed lister process and unparseable lister output both make
`get_packages` return an empty mapping instead of raising, and a run whose
global listing fails continues and terminates normally (exit code 0,
no uninstall) rather than raising. -/
theorem lister_failure_degrades :
    (∀ b : Bool, get_packages false b .processError = .ok [] ∧
      get_packages false b .jsonError = .ok []) ∧
    (∀ inp : MainInput, inp.venvExists = true → inp.venvPythonExists = true →
      (inp.globalLister = .processError ∨ inp.globalLister = .jsonError) →
      (mainRun inp).exitCode = 0 ∧ (mainRun inp).uninstallInvoked = false) := by
  constructor
  · intro b
    constructor <;> simp [get_packages]
  · intro inp hv hp hout
    have hphase : ∀ vk cp, mainPhase2 inp vk cp = ⟨0, false, false, false, cp, false, false⟩ :=
      fun vk cp => mainPhase2_globalEmpty inp vk cp hout
    simp only [mainRun, hv, hp]
    cases hvl : inp.venvLister <;> simp [get_packages, hphase]

/-- A run whose global `pip list` exits non-zero. -/
def exRunListerFail : MainInput :=
  ⟨true, true, none, .ok [("flask", "2.0")], .processError,
    some "flask", some "y", some "yes", true, true⟩

/-- Witness for C9: concrete lister failures give empty mappings, and a
concrete run with a failing global lister exits 0 without uninstalling. -/
theorem lister_failure_degrades_witness :
    (get_packages false false .processError = .ok [] ∧
      get_packages false false .jsonError = .ok []) ∧
    (exRunListerFail.venvExists = true ∧ exRunListerFail.venvPythonExists = true ∧
      exRunListerFail.globalLister = .processError ∧
      ((mainRun exRunListerFail).exitCode = 0 ∧
        (mainRun exRunListerFail).uninstallInvoked = false)) :=
  ⟨lister_failure_degrades.1 false,
    ⟨rfl, rfl, rfl, lister_failure_degrades.2 exRunListerFail rfl rfl (Or.inl rfl)⟩⟩

/-! ## String-parsing lemmas for claims C6 and C7 -/

theorem goodChar_iff (c : Char) :
    goodChar c = true ↔
      (pySpace c = false ∧ c ≠ '=' ∧ c ≠ '>' ∧ c ≠ '<' ∧ c ≠ '[' ∧ c ≠ '#') :=
  decide_eq_true_iff

theorem trimRight_cons (c : Char) (t : List Char) (hc : pySpace c = false) :
    trimRight (c :: t) = c :: trimRight t := by
  cases htr : trimRight t <;> simp [trimRight, htr, hc]

theorem trimRight_append (n t : List Char) (hn : ∀ c ∈ n, pySpace c = false) :
    trimRight (n ++ t) = n ++ trimRight t := by
  induction n with
  | nil => rfl
  | cons c n ih =>
    rw [List.cons_append, trimRight_cons c _ (hn c (List.mem_cons_self c n)),
      ih (fun c hc => hn c (List.mem_cons_of_mem _ hc))]
    rfl

theorem pyStripList_append (n t : List Char) (hne : n ≠ [])
    (hn : ∀ c ∈ n, pySpace c = false) :
    pyStripList (n ++ t) = n ++ trimRight t := by
  obtain ⟨c, n', rfl⟩ : ∃ c n', n = c :: n' := by
    cases n with
    | nil => exact absurd rfl hne
    | cons c n' => exact ⟨c, n', rfl⟩
  unfold pyStripList
  rw [List.cons_append, List.dropWhile_cons_of_neg
      (by simp [hn c (List.mem_cons_self c n')]),
    ← List.cons_append, trimRight_append _ _ hn]

theorem pyStripList_of_nonspace (n : List Char) (hn : ∀ c ∈ n, pySpace c = false) :
    pyStripList n = n := by
  cases n with
  | nil => rfl
  | cons c n' =>
    have := pyStripList_append (c :: n') [] (by simp) hn
    simpa [trimRight] using this

theorem specHead_trimRight (q : List Char) (hq : specHead q) :
    specHead (trimRight q) := by
  have h1 : pySpace '=' = false := by decide
  have h2 : pySpace '>' = false := by decide
  have h3 : pySpace '<' = false := by decide
  have h4 : pySpace '[' = false := by decide
  rcases hq with rfl | ⟨t, rfl⟩ | ⟨t, rfl⟩ | ⟨t, rfl⟩ | ⟨t, rfl⟩
  · exact Or.inl rfl
  · rw [trimRight_cons _ _ h1, trimRight_cons _ _ h1]
    exact Or.inr (Or.inl ⟨trimRight t, rfl⟩)
  · rw [trimRight_cons _ _ h2]
    exact Or.inr (Or.inr (Or.inl ⟨trimRight t, rfl⟩))
  · rw [trimRight_cons _ _ h3]
    exact Or.inr (Or.inr (Or.inr (Or.inl ⟨trimRight t, rfl⟩)))
  · rw [trimRight_cons _ _ h4]
    exact Or.inr (Or.inr (Or.inr (Or.inr ⟨trimRight t, rfl⟩)))

theorem beforeSeq_single_cons (a x : Char) (r : List Char) :
    beforeSeq [a] (x :: r) = if x = a then [] else x :: beforeSeq [a] r := by
  by_cases hx : x = a <;> simp [beforeSeq, hasPrefixCL, hx, Ne.symm]

theorem beforeSeq_pair_cons (a b x : Char) (r : List Char) :
    beforeSeq [a, b] (x :: r) =
      if x = a ∧ r.head? = some b then [] else x :: beforeSeq [a, b] r := by
  cases r with
  | nil =>
    simp [beforeSeq, hasPrefixCL]
  | cons y r' =>
    by_cases hx : x = a
    · by_cases hy : y = b
      · simp [beforeSeq, hasPrefixCL, hx, hy]
      · rw [if_neg (by simp [hy])]
        have hb : (b == y) = false := by
          simp
          exact fun h => absurd h.symm hy
        simp [beforeSeq, hasPrefixCL, hx, hb]
    · rw [if_neg (by simp [hx])]
      have : (a == x) = false := by
        simp
        exact fun h => absurd h.symm hx
      simp [beforeSeq, hasPrefixCL, this]

theorem beforeSeq_append (s0 : Char) (s' a b : List Char)
    (ha : ∀ c ∈ a, c ≠ s0) :
    beforeSeq (s0 :: s') (a ++ b) = a ++ beforeSeq (s0 :: s') b := by
  induction a with
  | nil => rfl
  | cons c a ih =>
    have hc : (s0 == c) = false := by
      simp
      exact fun h => absurd h.symm (ha c (List.mem_cons_self c a))
    rw [List.cons_append]
    show beforeSeq (s0 :: s') (c :: (a ++ b)) = c :: (a ++ beforeSeq (s0 :: s') b)
    rw [← ih (fun c hc => ha c (List.mem_cons_of_mem _ hc))]
    simp [beforeSeq, hasPrefixCL, hc]

theorem beforeSeq_of_not_mem (s0 : Char) (s' a : List Char)
    (ha : ∀ c ∈ a, c ≠ s0) :
    beforeSeq (s0 :: s') a = a := by
  have := beforeSeq_append s0 s' a [] ha
  simpa [beforeSeq] using this

/-- A bare name followed by nothing or by a version-specifier suffix loses
exactly that suffix under the split chain of `load_requirements`. -/
theorem stripVersionSpec_name (n q : List Char) (_hne : n ≠ [])
    (hn : ∀ c ∈ n, goodChar c = true) (hq : specHead q) :
    stripVersionSpec (n ++ q) = n := by
  have h1 : ∀ c ∈ n, c ≠ '=' := fun c hc => ((goodChar_iff c).mp (hn c hc)).2.1
  have h2 : ∀ c ∈ n, c ≠ '>' := fun c hc => ((goodChar_iff c).mp (hn c hc)).2.2.1
  have h3 : ∀ c ∈ n, c ≠ '<' := fun c hc => ((goodChar_iff c).mp (hn c hc)).2.2.2.1
  have h4 : ∀ c ∈ n, c ≠ '[' := fun c hc => ((goodChar_iff c).mp (hn c hc)).2.2.2.2.1
  rcases hq with rfl | ⟨t, rfl⟩ | ⟨t, rfl⟩ | ⟨t, rfl⟩ | ⟨t, rfl⟩
  · rw [List.append_nil]
    unfold stripVersionSpec
    rw [beforeSeq_of_not_mem '=' ['='] n h1,
      beforeSeq_of_not_mem '>' ['='] n h2,
      beforeSeq_of_not_mem '<' ['='] n h3,
      beforeSeq_of_not_mem '>' [] n h2,
      beforeSeq_of_not_mem '<' [] n h3,
      beforeSeq_of_not_mem '[' [] n h4]
  · unfold stripVersionSpec
    rw [beforeSeq_append '=' ['='] n _ h1, beforeSeq_pair_cons,
      if_pos ⟨rfl, rfl⟩, List.append_nil,
      beforeSeq_of_not_mem '>' ['='] n h2,
      beforeSeq_of_not_mem '<' ['='] n h3,
      beforeSeq_of_not_mem '>' [] n h2,
      beforeSeq_of_not_mem '<' [] n h3,
      beforeSeq_of_not_mem '[' [] n h4]
  · unfold stripVersionSpec
    rw [beforeSeq_append '=' ['='] n _ h1, beforeSeq_pair_cons,
      if_neg (fun h => absurd h.1 (by decide))]
    rw [beforeSeq_append '>' ['='] n _ h2, beforeSeq_pair_cons]
    by_cases hh : (beforeSeq ['=', '='] t).head? = some '='
    · rw [if_pos ⟨rfl, hh⟩, List.append_nil,
        beforeSeq_of_not_mem '<' ['='] n h3,
        beforeSeq_of_not_mem '>' [] n h2,
        beforeSeq_of_not_mem '<' [] n h3,
        beforeSeq_of_not_mem '[' [] n h4]
    · rw [if_neg (fun h => absurd h.2 hh)]
      rw [beforeSeq_append '<' ['='] n _ h3, beforeSeq_pair_cons,
        if_neg (fun h => absurd h.1 (by decide))]
      rw [beforeSeq_append '>' [] n _ h2, beforeSeq_single_cons,
        if_pos rfl, List.append_nil,
        beforeSeq_of_not_mem '<' [] n h3,
        beforeSeq_of_not_mem '[' [] n h4]
  · unfold stripVersionSpec
    rw [beforeSeq_append '=' ['='] n _ h1, beforeSeq_pair_cons,
      if_neg (fun h => absurd h.1 (by decide))]
    rw [beforeSeq_append '>' ['='] n _ h2, beforeSeq_pair_cons,
      if_neg (fun h => absurd h.1 (by decide))]
    rw [beforeSeq_append '<' ['='] n _ h3, beforeSeq_pair_cons]
    by_cases hh : (beforeSeq ['>', '='] (beforeSeq ['=', '='] t)).head? = some '='
    · rw [if_pos ⟨rfl, hh⟩, List.append_nil,
        beforeSeq_of_not_mem '>' [] n h2,
        beforeSeq_of_not_mem '<' [] n h3,
        beforeSeq_of_not_mem '[' [] n h4]
    · rw [if_neg (fun h => absurd h.2 hh)]
      rw [beforeSeq_append '>' [] n _ h2, beforeSeq_single_cons,
        if_neg (by decide)]
      rw [beforeSeq_append '<' [] n _ h3, beforeSeq_single_cons,
        if_pos rfl, List.append_nil,
        beforeSeq_of_not_mem '[' [] n h4]
  · unfold stripVersionSpec
    rw [beforeSeq_append '=' ['='] n _ h1, beforeSeq_pair_cons,
      if_neg (fun h => absurd h.1 (by decide))]
    rw [beforeSeq_append '>' ['='] n _ h2, beforeSeq_pair_cons,
      if_neg (fun h => absurd h.1 (by decide))]
    rw [beforeSeq_append '<' ['='] n _ h3, beforeSeq_pair_cons,
      if_neg (fun h => absurd h.1 (by decide))]
    rw [beforeSeq_append '>' [] n _ h2, beforeSeq_single_cons,
      if_neg (by decide)]
    rw [beforeSeq_append '<' [] n _ h3, beforeSeq_single_cons,
      if_neg (by decide)]
    rw [beforeSeq_append '[' [] n _ h4, beforeSeq_single_cons,
      if_pos rfl, List.append_nil]

/-- A kept manifest line consisting of a bare name plus an optional
specifier suffix parses to exactly the lowercased bare name. -/
theorem parseLine_name_spec (n q : List Char) (hne : n ≠ [])
    (hn : ∀ c ∈ n, goodChar c = true) (hq : specHead q) :
    parseLine (n ++ q) = some (pyLowerS ⟨n⟩) := by
  have hns : ∀ c ∈ n, pySpace c = false := fun c hc => ((goodChar_iff c).mp (hn c hc)).1
  have hstrip : pyStripList (n ++ q) = n ++ trimRight q := pyStripList_append n q hne hns
  have hq' : specHead (trimRight q) := specHead_trimRight q hq
  have hcond : (n ++ trimRight q) ≠ [] ∧ (n ++ trimRight q).head? ≠ some '#' := by
    obtain ⟨c, n', rfl⟩ : ∃ c n', n = c :: n' := by
      cases n with
      | nil => exact absurd rfl hne
      | cons c n' => exact ⟨c, n', rfl⟩
    have hc : c ≠ '#' :=
      ((goodChar_iff c).mp (hn c (List.mem_cons_self c n'))).2.2.2.2.2
    constructor
    · simp
    · simp [hc]
  simp only [parseLine]
  rw [hstrip, if_pos hcond, stripVersionSpec_name n (trimRight q) hne hn hq',
    pyStripList_of_nonspace n hns]

theorem splitLines_append (l r : List Char) (h : ('\n' : Char) ∉ l) :
    splitLines (l ++ '\n' :: r) = l :: splitLines r := by
  induction l with
  | nil => simp [splitLines]
  | cons c l ih =>
    have hc : c ≠ '\n' := fun hc => h (hc ▸ List.mem_cons_self c l)
    have hl : ('\n' : Char) ∉ l := fun hm => h (List.mem_cons_of_mem _ hm)
    rw [List.cons_append]
    simp only [splitLines]
    rw [ih hl]
    simp [hc]

theorem newline_not_mem_backupLine (p : String × String)
    (h1 : validName p.1) (h2 : ('\n' : Char) ∉ p.2.data) :
    ('\n' : Char) ∉ backupLine p := by
  intro hmem
  unfold backupLine at hmem
  rcases List.mem_append.mp hmem with hm | hm
  · exact absurd ((goodChar_iff _).mp (h1.2.1 _ hm)).1 (by decide)
  · rcases List.mem_cons.mp hm with h | hm2
    · exact absurd h (by decide)
    · rcases List.mem_cons.mp hm2 with h | hm3
      · exact absurd h (by decide)
      · exact h2 hm3

/-- Re-parsing the concatenated backup lines with the manifest parser yields
exactly the written package names, in order. -/
theorem backup_parse (L : List (String × String))
    (h : ∀ p ∈ L, validName p.1 ∧ ('\n' : Char) ∉ p.2.data) :
    (splitLines ((L.map (fun p => backupLine p ++ ['\n'])).flatten)).filterMap parseLine
      = L.map Prod.fst := by
  induction L with
  | nil => rfl
  | cons p L ih =>
    have hp := h p (List.mem_cons_self p L)
    have hL : ∀ q ∈ L, validName q.1 ∧ ('\n' : Char) ∉ q.2.data :=
      fun q hq => h q (List.mem_cons_of_mem _ hq)
    have hparse : parseLine (backupLine p) = some p.1 := by
      have hps := parseLine_name_spec p.1.data ('=' :: '=' :: p.2.data)
        hp.1.1 hp.1.2.1 (Or.inr (Or.inl ⟨p.2.data, rfl⟩))
      rw [show (⟨p.1.data⟩ : String) = p.1 from rfl] at hps
      rw [hp.1.2.2] at hps
      exact hps
    rw [List.map_cons, List.flatten_cons, List.append_assoc, List.singleton_append,
      splitLines_append _ _ (newline_not_mem_backupLine p hp.1 hp.2)]
    simp [List.filterMap_cons, hparse, ih hL]

/-- C6 counterexample: re-parsing the backup file with `load_requirements`
cannot reproduce the original `(name, version)` pairs — the parser strips
version specifiers, so two global mappings that differ only in a version
produce backups with identical parses. -/
theorem backup_roundtrip_pairs_counterexample :
    load_requirements ⟨create_backup_content [("flask", "2.0")]⟩ =
        load_requirements ⟨create_backup_content [("flask", "3.0")]⟩ ∧
      [("flask", "2.0")] ≠ [("flask", "3.0")] ∧
      load_requirements ⟨create_backup_content [("flask", "2.0")]⟩ = {"flask"} := by
  refine ⟨?_, by decide, ?_⟩ <;> decide

/-- C6 (amended): re-parsing the backup file written by `create_backup` with
the manifest parser logic reproduces exactly the set of original package
names (versions are discarded by the parser); the backup itself lists the
original pairs as `name==version` lines sorted by name. -/
theorem backup_roundtrip_names (g : List (String × String))
    (hn : ∀ p ∈ g, validName p.1)
    (hv : ∀ p ∈ g, ('\n' : Char) ∉ p.2.data) :
    load_requirements ⟨create_backup_content g⟩ = (g.map Prod.fst).toFinset ∧
      List.Sorted pairLe (create_backup_pairs g) ∧
      (create_backup_pairs g).Perm g := by
  have hperm : (create_backup_pairs g).Perm g := List.perm_insertionSort pairLe g
  refine ⟨?_, List.sorted_insertionSort pairLe g, hperm⟩
  have hL : ∀ p ∈ create_backup_pairs g, validName p.1 ∧ ('\n' : Char) ∉ p.2.data :=
    fun p hp => ⟨hn p (hperm.mem_iff.mp hp), hv p (hperm.mem_iff.mp hp)⟩
  show ((splitLines (create_backup_content g)).filterMap parseLine).toFinset =
    (g.map Prod.fst).toFinset
  unfold create_backup_content
  rw [backup_parse (create_backup_pairs g) hL]
  ext x
  simp only [List.mem_toFinset]
  exact (hperm.map Prod.fst).mem_iff

/-- Witness for C6 (amended) at a concrete two-package global mapping. -/
theorem backup_roundtrip_names_witness :
    (∀ p ∈ [("flask", "2.0"), ("pip", "23.0")], validName p.1) ∧
      load_requirements ⟨create_backup_content [("flask", "2.0"), ("pip", "23.0")]⟩ =
        ([("flask", "2.0"), ("pip", "23.0")].map Prod.fst).toFinset :=
  ⟨by decide,
    (backup_roundtrip_names [("flask", "2.0"), ("pip", "23.0")]
      (by decide) (by decide)).1⟩

/-- C7: manifest parsing is deterministic on identical contents; the line
`"requests>=2.0,<3.0  # http"` parses to exactly `requests`; a blank line
and a `#`-comment line contribute no entries; and a kept line made of a bare
name plus any `==`/`>=`/`<=`/`>`/`<`/`[` suffix yields exactly the bare
lowercased name. -/
theorem load_requirements_line_behavior :
    (∀ contents : String, load_requirements contents = load_requirements contents) ∧
      load_requirements "requests>=2.0,<3.0  # http" = {"requests"} ∧
      (∀ raw : List Char, pyStripList raw = [] → parseLine raw = none) ∧
      (∀ raw t : List Char, pyStripList raw = '#' :: t → parseLine raw = none) ∧
      (∀ n q : List Char, n ≠ [] → (∀ c ∈ n, goodChar c = true) → specHead q →
        parseLine (n ++ q) = some (pyLowerS ⟨n⟩)) := by
  refine ⟨fun _ => rfl, by decide, ?_, ?_, parseLine_name_spec⟩
  · intro raw h
    simp only [parseLine]
    rw [h]
    simp
  · intro raw t h
    simp only [parseLine]
    rw [h]
    simp

/-- Witness for C7: a concrete kept line with a `>=` suffix parses to the
bare name, and a concrete all-blank line parses to nothing. -/
theorem load_requirements_line_behavior_witness :
    (("requests".data ≠ [] ∧ ∀ c ∈ "requests".data, goodChar c = true) ∧
      parseLine ("requests".data ++ '>' :: '=' :: '2' :: []) =
        some (pyLowerS ⟨"requests".data⟩)) ∧
    (pyStripList "   ".data = [] ∧ parseLine "   ".data = none) :=
  ⟨⟨⟨by decide, by decide⟩,
      load_requirements_line_behavior.2.2.2.2 "requests".data ('>' :: '=' :: '2' :: [])
        (by decide) (by decide) (Or.inr (Or.inr (Or.inl ⟨'=' :: '2' :: [], rfl⟩)))⟩,
    ⟨by decide, load_requirements_line_behavior.2.2.1 "   ".data (by decide)⟩⟩

end CleanupGlobalEnv
